import Mathlib

/-!
Verification of the FlickrSync metadata-mapping and filename-derivation
engine (src/flickrsync.py) against its natural-language specification.

The Python source is shallowly embedded: each Python function relevant to
the claims is translated into a Lean definition over explicit data.
Python dictionaries become association lists that preserve insertion
order, Python floats become rationals, Python exceptions become Option.
-/

namespace FlickrSync

/-! ### Non-destructive merge writer (src/flickrsync.py, setExif, lines 44-69)

The loop at lines 62-65 iterates the keys of the provided exif patch in
order; a key is scheduled for writing exactly when it is not a member of
the metadata key set consulted (`metadata.exif_keys` in the source).
`applyPatch` embeds that loop abstractly over the consulted key set E,
returning the keys written and the `writeRequired` flag (the write at
lines 68-69 happens iff the flag is set). -/

def applyPatch (E : List String) (P : List (String × String)) :
    List String × Bool :=
  P.foldl
    (fun acc kv => if kv.1 ∈ E then acc else (acc.1 ++ [kv.1], true))
    ([], false)

/-! A fuller model of `setExif` acting on the actual file metadata, for
the claims about which key set the source consults.  A pyexiv2
`ImageMetadata` object exposes the keys present in the file; the property
`exif_keys` lists only the keys of the Exif namespace (keys starting
with "Exif."), while Xmp-namespace keys are reported by the separate
`xmp_keys` property.  The file metadata is modelled as an association
list of (key, value) pairs; `metadata[tag] = value` assigns, replacing
the value when the key is present. -/

/-- Python-style startswith on the character sequence. -/
def pyStartsWith (s p : String) : Bool :=
  p.data.isPrefixOf s.data

def exifKeysOf (md : List (String × String)) : List String :=
  (md.map Prod.fst).filter (fun k => pyStartsWith k "Exif.")

def setKey (md : List (String × String)) (k v : String) :
    List (String × String) :=
  if k ∈ md.map Prod.fst then
    md.map (fun p => if p.1 = k then (k, v) else p)
  else
    md ++ [(k, v)]

/-- The state transformer of setExif (lines 62-65): for each patch entry
in order, assign it when its key is absent from the exif key list of the
current metadata object (the pyexiv2 key properties are live, so the
test is against the evolving state). -/
def setExifRun (md : List (String × String)) (exif : List (String × String)) :
    List (String × String) :=
  exif.foldl (fun st kv => if kv.1 ∈ exifKeysOf st then st else setKey st kv.1 kv.2) md

/-- The keys setExif actually assigns, in order (lines 62-65). -/
def setExifWritten (md : List (String × String))
    (exif : List (String × String)) : List String :=
  (exif.foldl
    (fun acc kv =>
      if kv.1 ∈ exifKeysOf acc.1 then acc
      else (setKey acc.1 kv.1 kv.2, acc.2 ++ [kv.1]))
    (md, ([] : List String))).2

/-! ### License resolver (src/flickrsync.py, getLicense, lines 113-133)

The `licenses` list in the source is written as eleven string literals,
but the comma after "All Rights Reserved" (line 121) is missing, so
Python implicit string-literal concatenation joins the first two
literals into one element: the list that the program actually builds has
ten elements, reproduced below verbatim.  `licenses[i]` raises
IndexError for i >= 10, modelled by Option. -/

def licenses : List String := [
  "All Rights ReservedCC BY-NC-SA (Attribution-NonCommercial-ShareAlike) License",
  "CC BY-NC (Attribution-NonCommercial) License",
  "CC BY-NC-ND (Attribution-NonCommercial-NoDerivs) License",
  "CC BY (Attribution) License",
  "CC BY-SA (Attribution-ShareAlike) License",
  "CC BY-ND (Attribution-NoDerivs) License",
  "No known copyright restrictions",
  "United States Government Work",
  "Public Domain Dedication (CC0)",
  "Public Domain Mark"
]

/-- Line 133: `return licenses[int(photoInfo.get('license'))]`.  Flickr
license codes are non-negative integers; `none` is the IndexError. -/
def getLicense (code : Nat) : Option String :=
  licenses.get? code

/-! ### Filename deriver (src/flickrsync.py, generateFilename, lines 162-198)

The record is the photo XML element; the fields read by the function are
the `taken` date string, the optional title text, the `media` attribute
and the `originalformat` attribute. -/

structure PhotoInfo where
  taken : String
  title : Option String
  media : String
  originalformat : String
  deriving DecidableEq

/-- Python `s.replace(old, new)` for a single-character `old`: every
occurrence of the character `c` is replaced by the string `r`. -/
def replaceChar (c : Char) (r : List Char) : List Char → List Char
  | [] => []
  | x :: xs => (if x = c then r else [x]) ++ replaceChar c r xs

def pyReplace (s : String) (c : Char) (r : List Char) : String :=
  String.mk (replaceChar c r s.data)

/-- Line 180: `taken.replace("-", "").replace(":", "").replace(" ", "-")`. -/
def formatTaken (taken : String) : String :=
  pyReplace (pyReplace (pyReplace taken '-' []) ':' []) ' ' ['-']

/-- Lines 182-186: the title text with spaces replaced by underscores;
when the title text is absent (`None`), `.replace` raises and the bare
except substitutes the literal Unknown. -/
def filenameTitle (title : Option String) : String :=
  match title with
  | some t => pyReplace t ' ' ['_']
  | none => "Unknown"

/-- Lines 188-192: mp4 for video media, otherwise the stated original
format verbatim. -/
def extensionFor (info : PhotoInfo) : String :=
  if info.media = "video" then "mp4" else info.originalformat

/-- Lines 194-198: assemble `[photoNum_]taken_title.extension`. -/
def generateFilename (info : PhotoInfo) (photoNum : Option String) : String :=
  let taken := formatTaken info.taken
  let title := filenameTitle info.title
  let extension := extensionFor info
  match photoNum with
  | none => taken ++ "_" ++ title ++ "." ++ extension
  | some n => n ++ "_" ++ taken ++ "_" ++ title ++ "." ++ extension

/-! ### Metadata application decision (src/flickrsync.py, downloadPhoto,
lines 247-327)

Line 264 builds `filename = path + os.sep + generateFilename(...)`
(os.sep is "/" on the POSIX platforms the script targets), and lines
269 and 281 test `filename.endswith('.mp4')`; the exif patch is built
and `setExif` is called (lines 281-327) only when that test is false. -/

def pyEndsWith (s suffixStr : String) : Bool :=
  suffixStr.data.isSuffixOf s.data

def downloadFilename (path : String) (info : PhotoInfo)
    (photoNum : Option String) : String :=
  path ++ "/" ++ generateFilename info photoNum

/-- Line 281: metadata is built and applied iff the filename does not
end in ".mp4". -/
def metadataApplied (path : String) (info : PhotoInfo)
    (photoNum : Option String) : Bool :=
  !(pyEndsWith (downloadFilename path info photoNum) ".mp4")

/-- Line 290: `photoInfo.find('title').text or 'Unknown'` — the Python
`or` takes the right operand when the left is falsy, and both `None` and
the empty string are falsy. -/
def xmpTitle (title : Option String) : String :=
  match title with
  | some t => if t = "" then "Unknown" else t
  | none => "Unknown"

/-! ### Coordinate converter (src/flickrsync.py, gpsDecimalToDMS, lines 201-220)

Python floats are modelled as rationals.  Python `int()` truncates
toward zero; `round(x, 6)` rounds to six decimal places (on an exact
half-way point CPython rounds to even, while Mathlib `round` rounds
half up; both satisfy the bound of at most half a unit in the last
rounded place, which is all the claims use, and exact half-way points
never arise from binary floats anyway). -/

def pyTruncQ (q : ℚ) : ℤ :=
  if q < 0 then -⌊-q⌋ else ⌊q⌋

def pyRound6 (q : ℚ) : ℚ :=
  ((round (q * 1000000) : ℤ) : ℚ) / 1000000

/-- Lines 209-220; `loc` is the two-element hemisphere label list,
modelled as a pair (loc[0] = negative label, loc[1] = positive label).
The source returns the tuple (deg, min, sec, latlonRef). -/
def gpsDecimalToDMS (decimal : ℚ) (loc : String × String) :
    ℤ × ℤ × ℚ × String :=
  let latlonRef := if decimal < 0 then loc.1 else if decimal > 0 then loc.2 else ""
  let absValue := |decimal|
  let deg := pyTruncQ absValue
  let t := (absValue - (deg : ℚ)) * 60
  let m := pyTruncQ t
  let sec := pyRound6 ((t - (m : ℚ)) * 60)
  (deg, m, sec, latlonRef)

/-- Lines 223-232. -/
def gpsDecimalLatToDMS (decimalLat : ℚ) : ℤ × ℤ × ℚ × String :=
  gpsDecimalToDMS decimalLat ("S", "N")

/-- Lines 235-244. -/
def gpsDecimalLonToDMS (decimalLon : ℚ) : ℤ × ℤ × ℚ × String :=
  gpsDecimalToDMS decimalLon ("W", "E")

/-! ### Range parser (src/flickrsync.py, rangeSplit, lines 379-402)

Python `int(str)` strips surrounding whitespace and accepts an optional
sign followed by decimal digits; a malformed string raises ValueError,
the FormatError of the spec, modelled by `none`.  The uncaught
unpacking error of `a, b = part.split('-')` when the token has more
than one dash is likewise `none`. -/

/-- Python `str.split(sep)` for a single-character separator (the only
separators rangeSplit uses are a space, a comma and a dash): split at
every occurrence of `sep`, keeping empty pieces; the empty string
yields one empty piece. -/
def splitOnChar (sep : Char) : List Char → List (List Char)
  | [] => [[]]
  | c :: cs =>
      match splitOnChar sep cs with
      | [] => [[c]]
      | t :: ts => if c = sep then [] :: t :: ts else (c :: t) :: ts

def digitsToNat (ds : List Char) : Nat :=
  ds.foldl (fun a c => a * 10 + (c.toNat - Char.toNat '0')) 0

/-- Python surrounding-whitespace stripping done by `int(str)`. -/
def pyTrim (l : List Char) : List Char :=
  ((l.dropWhile Char.isWhitespace).reverse.dropWhile Char.isWhitespace).reverse

/-- Python `int(str)`: optional surrounding whitespace, an optional
sign, then one or more decimal digits; anything else raises ValueError
(`none`). -/
def pyIntStr (s : List Char) : Option Int :=
  match pyTrim s with
  | [] => none
  | '-' :: ds =>
      if ds.isEmpty then none
      else if ds.all Char.isDigit then some (-(digitsToNat ds : Int)) else none
  | '+' :: ds =>
      if ds.isEmpty then none
      else if ds.all Char.isDigit then some ((digitsToNat ds : Int)) else none
  | ds =>
      if ds.all Char.isDigit then some ((digitsToNat ds : Int)) else none

/-- Python `range(a, b + 1)` materialised as a list (line 398). -/
def intRange (a b : Int) : List Int :=
  (List.range (b + 1 - a).toNat).map (fun i : Nat => a + (i : Int))

/-- The body of the loop at lines 394-401 for one token: a token
holding a dash is split at the dash and must give exactly two numeric
pieces (`a, b = part.split('-')` raises on any other arity),
contributing the inclusive range; any other token is a bare integer. -/
def processPart (part : List Char) : Option (List Int) :=
  if '-' ∈ part then
    match splitOnChar '-' part with
    | [a, b] =>
        match pyIntStr a, pyIntStr b with
        | some a, some b => some (intRange a b)
        | _, _ => none
    | _ => none
  else
    (pyIntStr part).map (fun n => [n])

/-- Lines 389-402: choose the delimiter (comma when the input holds a
comma, else space), split, and accumulate the contribution of each
token in order; any token failure aborts the whole parse. -/
def rangeSplit (s : String) : Option (List Int) :=
  let splitChar := if ',' ∈ s.data then ',' else ' '
  (splitOnChar splitChar s.data).foldlM
    (fun acc part => (processPart part).map (fun xs => acc ++ xs)) []

/-! ### Pagination of photos not in any album (src/flickrsync.py,
downloadNotInSet, lines 356-376)

Line 367 requests pages with `per_page=500`; line 373 fetches a further
page exactly when the page just returned held exactly 100 entries.  The
while loop is embedded with explicit fuel (the loop body never runs
more than `fuel` times); `pages` is the remote feed, giving the list of
photos the service returns for each page number. -/

def perPageRequested : Nat := 500

/-- Line 373: the continuation test applied to the page just fetched. -/
def getNextPageAfter (photos : List String) : Bool :=
  photos.length == 100

/-- The page numbers the loop fetches, starting from `page` with the
given fuel. -/
def notInSetPagesFetched (pages : Nat → List String) :
    Nat → Nat → List Nat
  | 0, _ => []
  | fuel + 1, page =>
      page ::
        (if getNextPageAfter (pages page) then
          notInSetPagesFetched pages fuel (page + 1)
        else [])

/-! ## Helper lemmas -/

/-- Unfolding of the setExif loop with an arbitrary accumulator. -/
lemma applyPatch_foldl (E : List String) (P : List (String × String))
    (acc : List String × Bool) :
    P.foldl (fun acc kv => if kv.1 ∈ E then acc else (acc.1 ++ [kv.1], true)) acc
      = (acc.1 ++ (P.map Prod.fst).filter (fun k => decide (k ∉ E)),
         acc.2 || !((P.map Prod.fst).filter (fun k => decide (k ∉ E))).isEmpty) := by
  induction P generalizing acc with
  | nil => simp
  | cons kv P ih =>
      simp only [List.foldl_cons, List.map_cons, List.filter_cons]
      by_cases h : kv.1 ∈ E
      · simp [h, ih]
      · rw [ih]
        simp [h, List.append_assoc]

lemma string_ext (a b : String) (h : a.data = b.data) : a = b := by
  cases a; cases b; exact congrArg String.mk h

lemma replaceChar_append (c : Char) (r : List Char) (a b : List Char) :
    replaceChar c r (a ++ b) = replaceChar c r a ++ replaceChar c r b := by
  induction a with
  | nil => simp [replaceChar]
  | cons x xs ih => simp [replaceChar, ih, List.append_assoc]

lemma replaceChar_of_forall_ne (c : Char) (r : List Char) (l : List Char)
    (h : ∀ x ∈ l, x ≠ c) : replaceChar c r l = l := by
  induction l with
  | nil => rfl
  | cons x xs ih =>
      have hx : x ≠ c := h x (by simp)
      simp [replaceChar, hx, ih (fun y hy => h y (by simp [hy]))]

lemma replaceChar_singleton (c r : Char) (l : List Char) :
    replaceChar c [r] l = l.map (fun x => if x = c then r else x) := by
  induction l with
  | nil => rfl
  | cons x xs ih =>
      by_cases hx : x = c <;> simp [replaceChar, hx, ih]

/-- The composite of the three character replacements of line 180. -/
def stripSep (l : List Char) : List Char :=
  replaceChar ' ' ['-'] (replaceChar ':' [] (replaceChar '-' [] l))

lemma stripSep_append (a b : List Char) :
    stripSep (a ++ b) = stripSep a ++ stripSep b := by
  simp [stripSep, replaceChar_append]

lemma stripSep_of_sepFree (l : List Char)
    (h : ∀ x ∈ l, x ≠ '-' ∧ x ≠ ':' ∧ x ≠ ' ') : stripSep l = l := by
  unfold stripSep
  rw [replaceChar_of_forall_ne _ _ _ (fun x hx => (h x hx).1),
      replaceChar_of_forall_ne _ _ _ (fun x hx => (h x hx).2.1),
      replaceChar_of_forall_ne _ _ _ (fun x hx => (h x hx).2.2)]

lemma formatTaken_eq_stripSep (s : String) :
    formatTaken s = String.mk (stripSep s.data) := rfl

/-- A string free of the three separator characters rewritten by the
timestamp formatting (dash, colon, space). -/
def sepFree (s : String) : Prop :=
  ∀ x ∈ s.data, x ≠ '-' ∧ x ≠ ':' ∧ x ≠ ' '

instance sepFree_decidable (s : String) : Decidable (sepFree s) :=
  inferInstanceAs (Decidable (∀ x ∈ s.data, x ≠ '-' ∧ x ≠ ':' ∧ x ≠ ' '))

/-! ## Claims -/

/-- C1: for every consulted key set E and every patch P, the setExif
merge loop schedules for writing exactly the patch keys absent from E
(case-sensitive string equality), never a key already in E, and the
writeRequired flag driving the file write is set iff at least one patch
key was absent. -/
theorem applyPatch_writes_exactly_absent_keys
    (E : List String) (P : List (String × String)) :
    (applyPatch E P).1 = (P.map Prod.fst).filter (fun k => decide (k ∉ E)) ∧
    ((applyPatch E P).2 = true ↔ (applyPatch E P).1 ≠ []) ∧
    (∀ k, k ∈ E → k ∉ (applyPatch E P).1) := by
  have h := applyPatch_foldl E P ([], false)
  unfold applyPatch
  rw [h]
  refine ⟨by simp, ?_, ?_⟩
  · simp [List.isEmpty_iff]
  · intro k hk hmem
    simp only [List.nil_append, List.mem_filter, decide_eq_true_eq] at hmem
    exact hmem.2 hk

/-- Witness for C1 at a concrete key set and patch. -/
theorem applyPatch_writes_exactly_absent_keys_witness :
    "Exif.Image.Artist" ∉
      (applyPatch ["Exif.Image.Artist"]
        [("Exif.Image.Artist", "Graham"), ("Xmp.dc.title", "T")]).1 :=
  (applyPatch_writes_exactly_absent_keys ["Exif.Image.Artist"]
    [("Exif.Image.Artist", "Graham"), ("Xmp.dc.title", "T")]).2.2
    "Exif.Image.Artist" (by decide)

/-- C2: the license table the program actually builds has only ten
entries, because the missing comma after the first literal concatenates
the first two license names; code 10 therefore raises IndexError
instead of returning "Public Domain Mark" (which sits at index 9), and
code 0 returns the concatenated string rather than "All Rights
Reserved".  This refutes the claim that the table has 11 entries
indexed 0-10 with codes 0-10 all resolving. -/
theorem getLicense_missing_comma_code_bug :
    licenses.length = 10 ∧
    getLicense 10 = none ∧
    getLicense 0 =
      some "All Rights ReservedCC BY-NC-SA (Attribution-NonCommercial-ShareAlike) License" ∧
    getLicense 0 ≠ some "All Rights Reserved" ∧
    getLicense 9 = some "Public Domain Mark" := by
  refine ⟨rfl, rfl, rfl, ?_, rfl⟩
  decide

/-- C3: for every record whose capture time is built from
separator-free components in the source format `Y-M-D H:M:S` and every
optional sequence tag, generateFilename returns
`[sequenceTag_]timestamp_title.extension`, with the timestamp
reformatted as `YMD-HMS` (YYYYMMDD-HHMMSS for two-digit calendar
fields) and the title spaces replaced by underscores; without a
sequence tag the leading prefix is omitted. -/
theorem generateFilename_format
    (y mo d h mi s t media fmt : String) (tag : Option String)
    (hy : sepFree y) (hmo : sepFree mo) (hd : sepFree d)
    (hh : sepFree h) (hmi : sepFree mi) (hs : sepFree s)
    (hmedia : media ≠ "video") :
    generateFilename
      ⟨y ++ "-" ++ mo ++ "-" ++ d ++ " " ++ h ++ ":" ++ mi ++ ":" ++ s,
        some t, media, fmt⟩ tag
      = (match tag with | some n => n ++ "_" | none => "") ++
        y ++ mo ++ d ++ "-" ++ h ++ mi ++ s ++ "_" ++
        String.mk (t.data.map (fun c => if c = ' ' then '_' else c)) ++ "." ++ fmt := by
  have sy := stripSep_of_sepFree y.data hy
  have smo := stripSep_of_sepFree mo.data hmo
  have sd := stripSep_of_sepFree d.data hd
  have sh := stripSep_of_sepFree h.data hh
  have smi := stripSep_of_sepFree mi.data hmi
  have ss := stripSep_of_sepFree s.data hs
  have d1 : stripSep ("-" : String).data = [] := rfl
  have d2 : stripSep (":" : String).data = [] := rfl
  have d3 : stripSep (" " : String).data = ['-'] := rfl
  have htaken :
      formatTaken (y ++ "-" ++ mo ++ "-" ++ d ++ " " ++ h ++ ":" ++ mi ++ ":" ++ s)
        = y ++ mo ++ d ++ "-" ++ h ++ mi ++ s := by
    apply string_ext
    rw [formatTaken_eq_stripSep]
    show stripSep ((y ++ "-" ++ mo ++ "-" ++ d ++ " " ++ h ++ ":" ++ mi ++ ":" ++ s).data)
        = _
    simp only [String.data_append, stripSep_append, sy, smo, sd, sh, smi, ss, d1, d2, d3]
    simp [List.append_assoc]
  have htitle : filenameTitle (some t)
      = String.mk (t.data.map (fun c => if c = ' ' then '_' else c)) := by
    simp [filenameTitle, pyReplace, replaceChar_singleton]
  cases tag with
  | none =>
      simp only [generateFilename, extensionFor, if_neg hmedia, htaken, htitle]
      apply string_ext
      simp [String.data_append, List.append_assoc]
  | some n =>
      simp only [generateFilename, extensionFor, if_neg hmedia, htaken, htitle]
      apply string_ext
      simp [String.data_append, List.append_assoc]

/-- Witness for C3: the end-to-end scenario of the spec, checked both
against the literal expected filename and through the general
theorem. -/
theorem generateFilename_format_witness :
    generateFilename
        ⟨"2018-05-21 20:36:25", some "My Flickr Picture", "image", "jpg"⟩
        (some "0007")
      = "0007_20180521-203625_My_Flickr_Picture.jpg" ∧
    generateFilename
        ⟨"2018" ++ "-" ++ "05" ++ "-" ++ "21" ++ " " ++ "20" ++ ":" ++ "36" ++ ":" ++ "25",
          some "My Flickr Picture", "image", "jpg"⟩ (some "0007")
      = (match (some "0007" : Option String) with
          | some n => n ++ "_" | none => "") ++
        "2018" ++ "05" ++ "21" ++ "-" ++ "20" ++ "36" ++ "25" ++ "_" ++
        String.mk (("My Flickr Picture" : String).data.map
          (fun c => if c = ' ' then '_' else c)) ++ "." ++ "jpg" :=
  ⟨by decide,
    generateFilename_format "2018" "05" "21" "20" "36" "25"
      "My Flickr Picture" "image" "jpg" (some "0007")
      (by decide) (by decide) (by decide) (by decide) (by decide) (by decide)
      (by decide)⟩

lemma pyEndsWith_append (a b : String) : pyEndsWith (a ++ b) b = true := by
  unfold pyEndsWith
  rw [String.data_append]
  simp [List.isSuffixOf]

/-- C4: a video record always gets the mp4 extension, whatever its
stated original format, and the exif/xmp patch of downloadPhoto is
never built or applied for it; a non-video record keeps its stated
original format verbatim as the extension. -/
theorem video_mp4_and_no_metadata :
    (∀ (info : PhotoInfo) (path : String) (tag : Option String),
        info.media = "video" →
        extensionFor info = "mp4" ∧ metadataApplied path info tag = false) ∧
    (∀ info : PhotoInfo, info.media ≠ "video" →
        extensionFor info = info.originalformat) := by
  constructor
  · intro info path tag h
    have hext : extensionFor info = "mp4" := by simp [extensionFor, h]
    refine ⟨hext, ?_⟩
    have hends : pyEndsWith (downloadFilename path info tag) ".mp4" = true := by
      unfold downloadFilename generateFilename
      rw [hext]
      cases tag with
      | none =>
          dsimp only
          rw [String.append_assoc _ "." "mp4",
              show ("." ++ "mp4" : String) = ".mp4" from rfl,
              ← String.append_assoc, ← String.append_assoc]
          exact pyEndsWith_append _ ".mp4"
      | some n =>
          dsimp only
          rw [String.append_assoc _ "." "mp4",
              show ("." ++ "mp4" : String) = ".mp4" from rfl,
              ← String.append_assoc, ← String.append_assoc]
          exact pyEndsWith_append _ ".mp4"
    simp [metadataApplied, hends]
  · intro info h
    simp [extensionFor, h]

/-- Witness for C4: a concrete video record with stated original
format avi gets extension mp4 and no metadata application. -/
theorem video_mp4_and_no_metadata_witness :
    extensionFor ⟨"2018-05-21 20:36:25", some "Clip", "video", "avi"⟩ = "mp4" ∧
    metadataApplied "pics"
      ⟨"2018-05-21 20:36:25", some "Clip", "video", "avi"⟩ none = false :=
  video_mp4_and_no_metadata.1
    ⟨"2018-05-21 20:36:25", some "Clip", "video", "avi"⟩ "pics" none rfl

/-- C10: a present-but-empty title keeps the empty title segment in
the filename (Unknown is substituted only when the title text is
absent), while the mapped Xmp.dc.title metadata field becomes Unknown
for both the absent and the empty title, so the two disagree exactly
on the empty-string title. -/
theorem empty_title_filename_vs_metadata :
    filenameTitle (some "") = "" ∧
    xmpTitle (some "") = "Unknown" ∧
    filenameTitle (some "") ≠ xmpTitle (some "") ∧
    filenameTitle none = "Unknown" ∧
    xmpTitle none = "Unknown" ∧
    generateFilename ⟨"2018-05-21 20:36:25", some "", "image", "jpg"⟩ none
      = "20180521-203625_.jpg" ∧
    generateFilename ⟨"2018-05-21 20:36:25", some "", "image", "jpg"⟩ (some "01")
      = "01_20180521-203625_.jpg" := by
  decide

/-- Closed form of gpsDecimalToDMS: on the non-negative absolute value
the Python truncations are floors. -/
lemma gpsDecimalToDMS_eq (d : ℚ) (loc : String × String) :
    gpsDecimalToDMS d loc
      = (⌊|d|⌋, ⌊(|d| - (⌊|d|⌋ : ℚ)) * 60⌋,
          pyRound6 (((|d| - (⌊|d|⌋ : ℚ)) * 60
            - ((⌊(|d| - (⌊|d|⌋ : ℚ)) * 60⌋ : ℤ) : ℚ)) * 60),
          if d < 0 then loc.1 else if d > 0 then loc.2 else "") := by
  unfold gpsDecimalToDMS pyTruncQ
  have h0 : ¬(|d| < 0) := not_lt.mpr (abs_nonneg d)
  have h1 : (0 : ℚ) ≤ |d| - (⌊|d|⌋ : ℚ) := by
    have := Int.floor_le |d|; linarith
  have h2 : ¬((|d| - (⌊|d|⌋ : ℚ)) * 60 < 0) :=
    not_lt.mpr (mul_nonneg h1 (by norm_num))
  dsimp only
  rw [if_neg h0, if_neg h2]

/-- Degrees as the spec words them: the integer part of the absolute
value (section 4.1 of the spec). -/
def specDMSdegrees (d : ℚ) : ℤ := ⌊|d|⌋

/-- Minutes as the spec words them: the integer part of
(|decimal| - degrees) * 60. -/
def specDMSminutes (d : ℚ) : ℤ := ⌊(|d| - (specDMSdegrees d : ℚ)) * 60⌋

/-- Seconds as the spec words them: ((|decimal| - degrees) * 60 -
minutes) * 60, rounded to 6 decimal places. -/
def specDMSseconds (d : ℚ) : ℚ :=
  pyRound6 (((|d| - (specDMSdegrees d : ℚ)) * 60 - (specDMSminutes d : ℚ)) * 60)

/-- Hemisphere label as the spec words it: the negative label when the
decimal is negative, the positive label when positive, empty at zero. -/
def specDMShemisphere (d : ℚ) (loc : String × String) : String :=
  if d < 0 then loc.1 else if d > 0 then loc.2 else ""

/-- C5: gpsDecimalToDMS agrees with the spec formulas in every
component — degrees is the integer part of the absolute value, minutes
the integer part of (|d| - degrees) * 60, seconds the remainder times
60 rounded to six decimal places, and the hemisphere label follows the
sign with the empty string at exactly zero; being a total Lean
function over ℚ it has no error cases. -/
theorem gpsDecimalToDMS_matches_spec (d : ℚ) (loc : String × String) :
    gpsDecimalToDMS d loc
      = (specDMSdegrees d, specDMSminutes d, specDMSseconds d,
          specDMShemisphere d loc) := by
  rw [gpsDecimalToDMS_eq]; rfl

/-- C6: the degrees component is the floor of the absolute value, and
the reconstruction degrees + minutes/60 + seconds/3600 differs from the
absolute value by at most one millionth. -/
theorem gpsDecimalToDMS_reconstruction (d : ℚ) (loc : String × String) :
    (gpsDecimalToDMS d loc).1 = ⌊|d|⌋ ∧
    abs ((((gpsDecimalToDMS d loc).1 : ℚ)
        + ((gpsDecimalToDMS d loc).2.1 : ℚ) / 60
        + (gpsDecimalToDMS d loc).2.2.1 / 3600) - |d|) ≤ 1 / 1000000 := by
  rw [gpsDecimalToDMS_eq]
  refine ⟨rfl, ?_⟩
  dsimp only
  set a : ℚ := |d| with ha
  set deg : ℤ := ⌊a⌋ with hdeg
  set t : ℚ := (a - (deg : ℚ)) * 60 with ht
  set m : ℤ := ⌊t⌋ with hm
  set e : ℚ := (t - (m : ℚ)) * 60 with he
  have hexact : (deg : ℚ) + (m : ℚ) / 60 + e / 3600 = a := by
    rw [he, ht]; ring
  have hround : |e * 1000000 - (round (e * 1000000) : ℚ)| ≤ 1 / 2 :=
    abs_sub_round _
  have hdiff : pyRound6 e - e
      = ((round (e * 1000000) : ℚ) - e * 1000000) / 1000000 := by
    unfold pyRound6; ring
  have hsplit : ((deg : ℚ) + (m : ℚ) / 60 + pyRound6 e / 3600) - a
      = (pyRound6 e - e) / 3600 := by
    rw [← hexact]; ring
  rw [hsplit, hdiff]
  have h2 : |((round (e * 1000000) : ℚ) - e * 1000000)| ≤ 1 / 2 := by
    rw [abs_sub_comm] at hround; exact hround
  have h3 : |((round (e * 1000000) : ℚ) - e * 1000000) / 1000000 / 3600|
      = |((round (e * 1000000) : ℚ) - e * 1000000)| / 1000000 / 3600 := by
    rw [abs_div, abs_div]; norm_num
  rw [h3]
  linarith

lemma intRange_nil (a b : Int) (h : b < a) : intRange a b = [] := by
  unfold intRange
  have h0 : (b + 1 - a).toNat = 0 := by omega
  rw [h0]
  rfl

lemma intRange_cons (a b : Int) (h : a ≤ b) :
    intRange a b = a :: intRange (a + 1) b := by
  unfold intRange
  have hm : (b + 1 - a).toNat = (b + 1 - (a + 1)).toNat + 1 := by omega
  rw [hm, List.range_succ_eq_map]
  simp only [List.map_cons, List.map_map, Nat.cast_zero, add_zero]
  congr 1
  apply List.map_congr_left
  intro i _
  simp
  ring

/-- The per-token contributions concatenated in order, aborting on the
first failing token: the reference composition the rangeSplit loop is
compared against. -/
def tokensEval : List (List Char) → Option (List Int)
  | [] => some []
  | p :: ps =>
      match processPart p, tokensEval ps with
      | some xs, some rest => some (xs ++ rest)
      | _, _ => none

lemma rangeSplit_foldl (parts : List (List Char)) :
    ∀ acc : List Int,
      (parts.foldlM (fun acc part => (processPart part).map (fun xs => acc ++ xs)) acc
          : Option (List Int))
        = ((tokensEval parts).map (fun ls => acc ++ ls)) := by
  induction parts with
  | nil => intro acc; simp [tokensEval]
  | cons p ps ih =>
      intro acc
      cases hp : processPart p with
      | none => simp [List.foldlM_cons, tokensEval, hp]
      | some xs =>
          simp only [List.foldlM_cons, tokensEval, hp, Option.map_some]
          cases hps : tokensEval ps with
          | none =>
              have h := ih (acc ++ xs)
              rw [hps] at h
              simpa using h
          | some rest =>
              have h := ih (acc ++ xs)
              rw [hps] at h
              simpa [List.append_assoc] using h

/-- C7: rangeSplit splits on comma when the input holds a comma and on
space otherwise, evaluates the tokens left to right concatenating their
contributions (preserving order and duplicates) and aborting on the
first bad token; a bare numeric token contributes itself, an a-b token
the inclusive ascending range (empty without error when b < a), and a
non-numeric token fails the whole parse; the two spec examples
evaluate as stated. -/
theorem rangeSplit_spec :
    rangeSplit "1 2 4-6 8" = some [1, 2, 4, 5, 6, 8] ∧
    rangeSplit "1,3,5" = some [1, 3, 5] ∧
    rangeSplit "6-4 2" = some [2] ∧
    rangeSplit "1 a 3" = none ∧
    (∀ s : String, rangeSplit s
        = tokensEval (splitOnChar (if ',' ∈ s.data then ',' else ' ') s.data)) ∧
    (∀ (part : List Char) (n : Int), '-' ∉ part → pyIntStr part = some n →
        processPart part = some [n]) ∧
    (∀ part : List Char, '-' ∉ part → pyIntStr part = none →
        processPart part = none) ∧
    (∀ a b : Int, b < a → intRange a b = []) ∧
    (∀ a b : Int, a ≤ b → intRange a b = a :: intRange (a + 1) b) := by
  refine ⟨by decide, by decide, by decide, by decide, ?_, ?_, ?_, ?_, ?_⟩
  · intro s
    unfold rangeSplit
    rw [rangeSplit_foldl]
    cases tokensEval (splitOnChar (if ',' ∈ s.data then ',' else ' ') s.data) <;>
      simp
  · intro part n hd hn
    unfold processPart
    rw [if_neg hd, hn]
    rfl
  · intro part hd hn
    unfold processPart
    rw [if_neg hd, hn]
    rfl
  · exact intRange_nil
  · exact intRange_cons

/-- Witness for C7 at concrete tokens and bounds. -/
theorem rangeSplit_spec_witness :
    processPart ['4'] = some [4] ∧
    processPart ['x'] = none ∧
    intRange 6 4 = [] ∧
    intRange 4 6 = 4 :: intRange (4 + 1) 6 :=
  ⟨rangeSplit_spec.2.2.2.2.2.1 ['4'] 4 (by decide) (by decide),
   rangeSplit_spec.2.2.2.2.2.2.1 ['x'] (by decide) (by decide),
   rangeSplit_spec.2.2.2.2.2.2.2.1 6 4 (by decide),
   rangeSplit_spec.2.2.2.2.2.2.2.2 4 6 (by decide)⟩

set_option maxRecDepth 8000 in
/-- C8: the pagination claim fails on the code: the loop requests
pages of 500 entries but fetches a further page only when the page
just returned held exactly 100 entries, so a full page of 500 stops
the pagination (everything past the first 500 photos is silently
skipped) while a partial page of exactly 100 spuriously continues
it. -/
theorem downloadNotInSet_pagination_code_bug :
    perPageRequested = 500 ∧
    (List.replicate 500 "p").length = perPageRequested ∧
    getNextPageAfter (List.replicate 500 "p") = false ∧
    getNextPageAfter (List.replicate 100 "p") = true ∧
    notInSetPagesFetched (fun _ => List.replicate 500 "p") 10 1 = [1] := by
  exact ⟨rfl, by decide, by decide, by decide, by decide⟩

lemma xmp_not_exif (k : String) (h : pyStartsWith k "Xmp." = true) :
    pyStartsWith k "Exif." = false := by
  unfold pyStartsWith at h ⊢
  cases hk : k.data with
  | nil => rw [hk] at h; simp [List.isPrefixOf] at h
  | cons c cs =>
      rw [hk] at h
      show (['E', 'x', 'i', 'f', '.'] : List Char).isPrefixOf (c :: cs) = false
      have hc : c = 'X' := by
        have h2 : (['X', 'm', 'p', '.'] : List Char).isPrefixOf (c :: cs) = true := h
        simp [List.isPrefixOf] at h2
        exact h2.1.symm
      subst hc
      simp [List.isPrefixOf]

lemma lookup_map_assign (md : List (String × String)) (k v : String)
    (h : k ∈ md.map Prod.fst) :
    (md.map (fun p => if p.1 = k then (k, v) else p)).lookup k = some v := by
  induction md with
  | nil => simp at h
  | cons p md ih =>
      simp only [List.map_cons]
      by_cases hp : p.1 = k
      · rw [if_pos hp]
        simp [List.lookup]
      · have hk : k ∈ md.map Prod.fst := by
          simp only [List.map_cons, List.mem_cons] at h
          rcases h with h | h
          · exact absurd h.symm hp
          · exact h
        have hne : (k == p.1) = false := by
          simp only [beq_eq_false_iff_ne, ne_eq]
          intro hkp
          exact hp hkp.symm
        rw [if_neg hp]
        simp [List.lookup, hne, ih hk]

/-- C9: setExif consults only the exif key list of the file; an
Xmp-namespace key already present in the file metadata is never in
that list, so a patch carrying it is still written and its stored
value replaced by the patch value, while a key of the Exif namespace
that is present is left untouched — the additive merge is guaranteed
only for Exif-namespace keys. -/
theorem setExif_checks_only_exif_keys :
    (∀ (md : List (String × String)) (k v : String),
        pyStartsWith k "Xmp." = true → k ∈ md.map Prod.fst →
        k ∈ setExifWritten md [(k, v)] ∧
        (setExifRun md [(k, v)]).lookup k = some v) ∧
    (∀ (md : List (String × String)) (k v : String),
        k ∈ exifKeysOf md → setExifRun md [(k, v)] = md) := by
  constructor
  · intro md k v hxmp hmem
    have hnotexif : k ∉ exifKeysOf md := by
      intro hmm
      have h2 := (List.mem_filter.mp hmm).2
      rw [xmp_not_exif k hxmp] at h2
      simp at h2
    constructor
    · unfold setExifWritten
      simp [hnotexif]
    · unfold setExifRun
      simp only [List.foldl_cons, List.foldl_nil]
      rw [if_neg hnotexif]
      unfold setKey
      rw [if_pos hmem]
      exact lookup_map_assign md k v hmem
  · intro md k v h
    unfold setExifRun
    simp [h]

/-- Witness for C9: a file already holding Xmp.dc.title = Old still
has that field written and overwritten to the patch value New. -/
theorem setExif_checks_only_exif_keys_witness :
    "Xmp.dc.title" ∈
      setExifWritten [("Xmp.dc.title", "Old")] [("Xmp.dc.title", "New")] ∧
    (setExifRun [("Xmp.dc.title", "Old")]
      [("Xmp.dc.title", "New")]).lookup "Xmp.dc.title" = some "New" :=
  setExif_checks_only_exif_keys.1 [("Xmp.dc.title", "Old")]
    "Xmp.dc.title" "New" (by decide) (by decide)

end FlickrSync
